import Mathlib

/-!
Verification of the test-case orchestration engine of `src/main.py`
(Coding_Engine).  The Python functions are shallowly embedded as Lean
functions.  External effects are made explicit parameters:

* the filesystem is a map `String → Option String` from file name to
  content (`none` models a failing `open`);
* the remote Piston execution service is a response oracle
  `Nat → SResponse` giving, per attempt, either a decoded 200 JSON body,
  an HTTP 429 status, an `aiohttp.ClientError` with its message, or any
  other exception with its message;
* the asyncio scheduling of `process_single_test_case` is embedded as a
  small-step machine driven by explicit scheduler commands, one step per
  atomic block between `await` points.
-/

/-! ### Output normalisation and comparison (main.py lines 172-193) -/

/-- Whitespace characters removed by Python's `str.rstrip()` for ASCII
text: space, `\t`, `\n`, `\r`, `\x0b`, `\x0c`. -/
def isPySpace (c : Char) : Bool :=
  c = ' ' || c = '\t' || c = '\n' || c = '\r' || c = '\x0b' || c = '\x0c'

/-- Python `s.rstrip()`: remove all trailing whitespace characters. -/
def pyRstrip (s : String) : String :=
  String.mk ((s.data.reverse.dropWhile isPySpace).reverse)

/-- `normalize_output` (main.py lines 172-178): `None` becomes `""`,
otherwise the string is right-stripped. -/
def normalize_output : Option String → String
  | none => ""
  | some s => pyRstrip s

/-- `compare_outputs` (main.py lines 180-193): normalise both sides and
compare for exact equality, returning the match flag and a message. -/
def compare_outputs (actual expected : Option String) : Bool × String :=
  let a := normalize_output actual
  let e := normalize_output expected
  if a = e then (true, "Output matches expected result")
  else (false, "Output mismatch\nExpected:\n" ++ e ++ "\n\nGot:\n" ++ a)

/-! ### The Piston execution client and retry loop (main.py lines 7-144) -/

/-- One section (`run` or `compile`) of the Piston API response JSON.
Absent keys are `none`, matching `dict.get` defaults in the source. -/
structure SectionData where
  stdout : Option String := none
  stderr : Option String := none
  code : Option Int := none
deriving DecidableEq

/-- A decoded Piston API 200-response body, with optional `run` and
`compile` sections. -/
structure PistonData where
  run : Option SectionData := none
  compile : Option SectionData := none
deriving DecidableEq

/-- The result dictionary built by `run_test_case`
(main.py lines 64-70). -/
structure ExecResult where
  stdout : String
  stderr : String
  compile_error : Option String
  runtime_error : Option String
  success : Bool
deriving DecidableEq

/-- Python's `x or y` on strings: `y` if `x` is empty, else `x`. -/
def pyOr (x y : String) : String := if x = "" then y else x

/-- The base result dictionary (main.py lines 64-70). -/
def baseResult : ExecResult :=
  { stdout := "", stderr := "", compile_error := none, runtime_error := none,
    success := false }

/-- Decoding of the `run` section (main.py lines 73-85): stdout/stderr
default to `""`, the exit code defaults to `-1`; a nonzero exit code with
empty stderr becomes a synthetic runtime error. -/
def runStanza (orun : Option SectionData) : ExecResult :=
  match orun with
  | none => baseResult
  | some run_data =>
      let out := run_data.stdout.getD ""
      let err := run_data.stderr.getD ""
      let exit_code := run_data.code.getD (-1)
      let r := { baseResult with
                 stdout := out, stderr := err,
                 success := decide (exit_code = 0) }
      if exit_code ≠ 0 ∧ err = "" then
        { r with
          runtime_error := some ("Process exited with code " ++ toString exit_code),
          success := false }
      else r

/-- Decoding of the `compile` section (main.py lines 87-95): non-empty
stderr, or a nonzero compile exit code, classifies as a compile error
(stderr preferred, then stdout, then a generic message) and forces
`success = false`. -/
def compileStanza (ocompile : Option SectionData) (r : ExecResult) : ExecResult :=
  match ocompile with
  | none => r
  | some compile_data =>
      if compile_data.stderr.getD "" ≠ "" then
        { r with compile_error := some (compile_data.stderr.getD ""), success := false }
      else if compile_data.code.getD 0 ≠ 0 then
        { r with compile_error := some (pyOr (compile_data.stdout.getD "") "Compilation failed"),
                 success := false }
      else r

/-- Missing `run` section (main.py lines 97-100): classified as a runtime
error. -/
def noRunStanza (orun : Option SectionData) (r : ExecResult) : ExecResult :=
  if orun = none then
    { r with runtime_error := some "No execution output received", success := false }
  else r

/-- Full decoding of a 200 response body, in source order
(main.py lines 63-102). -/
def processData (d : PistonData) : ExecResult :=
  noRunStanza d.run (compileStanza d.compile (runStanza d.run))

/-- What one attempt of `run_test_case` observes from the service:
a decoded 200 body, an HTTP 429 status, an `aiohttp.ClientError`
carrying its message (this includes `raise_for_status` on any other
non-2xx status), or any other exception carrying its message. -/
inductive SResponse where
  | ok (data : PistonData)
  | status429
  | clientError (msg : String)
  | otherExn (msg : String)
deriving DecidableEq

/-- Substring test on character lists. -/
def containsSub (pat : List Char) : List Char → Bool
  | [] => pat.isEmpty
  | c :: rest => pat.isPrefixOf (c :: rest) || containsSub pat rest

/-- The rate-limit test applied to a caught `ClientError`'s message
(main.py lines 105-112): lowercase, then look for any of the four
markers as a substring. -/
def isRateLimitMsg (m : String) : Bool :=
  let l := m.data.map Char.toLower
  containsSub "rate limit".data l || containsSub "ratelimit".data l ||
    containsSub "429".data l || containsSub "too many requests".data l

/-- Terminal outcome after exhausting retries on HTTP 429 statuses
(main.py lines 52-58). -/
def rateLimitedResult : ExecResult :=
  { stdout := "", stderr := "", compile_error := none,
    runtime_error := some "Rate limit exceeded", success := false }

/-- Terminal outcome for a non-retried (or retry-exhausted)
`ClientError` (main.py lines 120-126). -/
def httpErrorResult (m : String) : ExecResult :=
  { stdout := "", stderr := "", compile_error := none,
    runtime_error := some ("HTTP error: " ++ m), success := false }

/-- Terminal outcome for any other exception (main.py lines 127-135). -/
def exnResult (m : String) : ExecResult :=
  { stdout := "", stderr := "", compile_error := none,
    runtime_error := some m, success := false }

/-- The outcome of a single attempt when no retry is possible or
allowed. -/
def noRetryResult : SResponse → ExecResult
  | .ok d => processData d
  | .status429 => rateLimitedResult
  | .clientError m => httpErrorResult m
  | .otherExn m => exnResult m

/-- The retry loop of `run_test_case` (main.py lines 24-135).
`resp attempt` is what attempt number `attempt` observes; `remaining`
counts the retries still allowed, so `remaining > 0` is the source's
`attempt < max_retries`.  Returns the final outcome together with the
list of backoff sleep durations performed, in order. -/
def run_loop (resp : Nat → SResponse) (retry_delay : Nat) :
    (attempt remaining : Nat) → ExecResult × List Nat
  | attempt, 0 =>
      match resp attempt with
      | .ok d => (processData d, [])
      | .status429 => (rateLimitedResult, [])
      | .clientError m => (httpErrorResult m, [])
      | .otherExn m => (exnResult m, [])
  | attempt, remaining + 1 =>
      match resp attempt with
      | .ok d => (processData d, [])
      | .status429 =>
          let p := run_loop resp retry_delay (attempt + 1) remaining
          (p.1, retry_delay * 2 ^ attempt :: p.2)
      | .clientError m =>
          if isRateLimitMsg m then
            let p := run_loop resp retry_delay (attempt + 1) remaining
            (p.1, retry_delay * 2 ^ attempt :: p.2)
          else (httpErrorResult m, [])
      | .otherExn m => (exnResult m, [])

/-- `run_test_case` (main.py lines 7-144), with its defaults
`max_retries = 3`, `retry_delay = 1`. -/
def run_test_case (resp : Nat → SResponse) (max_retries : Nat := 3)
    (retry_delay : Nat := 1) : ExecResult × List Nat :=
  run_loop resp retry_delay 0 max_retries

/-! ### Test-case discovery (main.py lines 195-223) -/

/-- `Path.stem`: the final path component without its last suffix.  A
leading dot does not start a suffix (`Path(".txt").stem = ".txt"`). -/
def stemChars (l : List Char) : List Char :=
  match l.reverse.dropWhile (fun c => c ≠ '.') with
  | [] => l
  | _ :: [] => l
  | _ :: rest => rest.reverse

/-- `Path.stem` on a file name. -/
def stem (f : String) : String := String.mk (stemChars f.data)

/-- Python `str.replace`: replace every non-overlapping occurrence of
`pat` left to right.  `fuel` bounds the recursion; a nonempty `pat`
consumes at least one character per step, so `fuel = l.length`
suffices. -/
def replaceAllF (pat rep : List Char) : Nat → List Char → List Char
  | 0, l => l
  | _ + 1, [] => []
  | fuel + 1, c :: rest =>
      if pat.isPrefixOf (c :: rest) then
        rep ++ replaceAllF pat rep fuel ((c :: rest).drop pat.length)
      else c :: replaceAllF pat rep fuel rest

/-- Python `s.replace(pat, rep)` for nonempty `pat`. -/
def replaceStr (s pat rep : String) : String :=
  String.mk (replaceAllF pat.data rep.data s.data.length s.data)

/-- The glob pattern `input*.txt` of `get_test_case_files`: the name
starts with `input` and ends with `.txt` (`*` matches any run of
characters, including dots). -/
def globInputTxt (f : String) : Bool :=
  "input".data.isPrefixOf f.data && ".txt".data.isSuffixOf f.data

/-- The expected-output file name paired with an input file
(main.py lines 214-216): `output` + (stem minus every `input`
occurrence) + `.txt`. -/
def outName (f : String) : String :=
  "output" ++ replaceStr (stem f) "input" "" ++ ".txt"

/-- The warning printed for an input file with no matching output file
(main.py line 221). -/
def warnMsg (f : String) : String :=
  "Warning: " ++ outName f ++ " not found for " ++ f

/-- Lexicographic code-point order on character lists: Python's string
comparison, which `sorted` applies to the globbed file names. -/
def lexLe : List Char → List Char → Bool
  | [], _ => true
  | _ :: _, [] => false
  | a :: as, b :: bs =>
      if a.toNat < b.toNat then true
      else if b.toNat < a.toNat then false
      else lexLe as bs

/-- Python's `<=` on file-name strings, as a relation. -/
def strLeR (a b : String) : Prop := lexLe a.data b.data = true

instance : DecidableRel strLeR := fun a b =>
  inferInstanceAs (Decidable (lexLe a.data b.data = true))

/-- `get_test_case_files` (main.py lines 195-223) over a directory
listing: glob the `input*.txt` names, sort them (Python's stable sort on
path names; `insertionSort` is stable with the same comparisons), and
pair each with its output file when that exists, otherwise record a
warning and drop the pair.  Returns `(test_pairs, warnings)`. -/
def get_test_case_files (dir : List String) : List (String × String) × List String :=
  let input_files := List.insertionSort strLeR (dir.filter globInputTxt)
  (input_files.filterMap (fun f => if outName f ∈ dir then some (f, outName f) else none),
   input_files.filterMap (fun f => if outName f ∈ dir then none else some (warnMsg f)))

/-- Decimal reading of a digit string, to express "the test number N" of
an `inputN.txt` file. -/
def toNatDigits (l : List Char) : Nat := l.foldl (fun n c => n * 10 + (c.toNat - 48)) 0

/-- The test number N of a discovered input file name. -/
def testNum (f : String) : Nat := toNatDigits (replaceStr (stem f) "input" "").data

/-- Whether a list of numbers is in ascending order. -/
def ascB : List Nat → Bool
  | a :: b :: r => decide (a ≤ b) && ascB (b :: r)
  | _ => true

/-! ### Case runner and orchestrator (main.py lines 225-441) -/

/-- Python falsiness of an optional string: `None` and `""` are falsy. -/
def pyFalsy (o : Option String) : Bool := o.getD "" == ""

/-- The per-case result dictionary assembled by
`process_single_test_case` (main.py lines 287-299), without the
wall-clock timing fields. -/
structure JudgedResult where
  stdout : String
  stderr : String
  compile_error : Option String
  runtime_error : Option String
  success : Bool
  expected_output : String
  output_match : Bool
  comparison_msg : String
  test_name : String
  test_index : Nat
  test_input : String
  overall_success : Bool
deriving DecidableEq

/-- Order on judged results by original test index: the key of the final
`results.sort` (main.py line 395). -/
def idxLe (a b : JudgedResult) : Prop := a.test_index ≤ b.test_index

instance : DecidableRel idxLe := fun a b =>
  inferInstanceAs (Decidable (a.test_index ≤ b.test_index))

instance : IsTotal JudgedResult idxLe := ⟨fun a b => Nat.le_total a.test_index b.test_index⟩

instance : IsTrans JudgedResult idxLe := ⟨fun _ _ _ => Nat.le_trans⟩

/-- `process_single_test_case` (main.py lines 225-301): read the two
files (an uncaught filesystem error is modelled by `Except.error`,
mirroring the uncaught Python `OSError`), run the case, compare outputs
and assemble the judged record.  The rate-limiter interaction is timing
only and is modelled separately; `run_test_case` is called with its
defaults (main.py line 270). -/
def process_single_test_case (fs : String → Option String) (resp : Nat → SResponse)
    (input_file expected_output_file : String) (test_index : Nat) :
    Except String JudgedResult :=
  match fs input_file with
  | none => .error ("[Errno 2] No such file or directory: " ++ input_file)
  | some test_input =>
    match fs expected_output_file with
    | none => .error ("[Errno 2] No such file or directory: " ++ expected_output_file)
    | some expected_output =>
      let result := (run_test_case resp).1
      let cmp := compare_outputs (some result.stdout) (some expected_output)
      .ok { stdout := result.stdout,
            stderr := result.stderr,
            compile_error := result.compile_error,
            runtime_error := result.runtime_error,
            success := result.success,
            expected_output := expected_output,
            output_match := cmp.1,
            comparison_msg := cmp.2,
            test_name := stem input_file,
            test_index := test_index,
            test_input := test_input,
            overall_success := result.success && cmp.1 && pyFalsy result.compile_error }

/-- `asyncio.gather` over already-spawned tasks: collects the values in
task order; if any task raised, the exception propagates out and no list
is produced (default `return_exceptions=False`). -/
def gatherE {α : Type} : List (Except String α) → Except String (List α)
  | [] => .ok []
  | x :: xs =>
      match x with
      | .error e => .error e
      | .ok v =>
          match gatherE xs with
          | .error e => .error e
          | .ok vs => .ok (v :: vs)

/-- Python `enumerate(l, i)`. -/
def enumFrom {α : Type} (i : Nat) : List α → List (Nat × α)
  | [] => []
  | x :: xs => (i, x) :: enumFrom (i + 1) xs

/-- The index list `[i, i+1, ..., i+n-1]`. -/
def idxFrom (i : Nat) : Nat → List Nat
  | 0 => []
  | n + 1 => i :: idxFrom (i + 1) n

/-- Whether an `Except` value is a success. -/
def exceptOk {α : Type} : Except String α → Bool
  | .ok _ => true
  | .error _ => false

/-- `run_test_cases_from_files` (main.py lines 303-441): discover the
pairs, spawn one case task per pair with indices from
`enumerate(test_pairs, 1)`, gather, and sort the results by
`test_index`.  The service capability probe (lines 331-359) only selects
the base URL and the rate parameters and is omitted; timing metadata and
printing are omitted.  `oracle i` is the response stream that case
number `i` observes. -/
def run_test_cases_from_files (dir : List String) (fs : String → Option String)
    (oracle : Nat → Nat → SResponse) : Except String (List JudgedResult) :=
  let test_pairs := (get_test_case_files dir).1
  if test_pairs.length = 0 then .ok []
  else
    match gatherE ((enumFrom 1 test_pairs).map
        (fun ip => process_single_test_case fs (oracle ip.1) ip.2.1 ip.2.2 ip.1)) with
    | .error e => .error e
    | .ok results => .ok (List.insertionSort idxLe results)

/-! ### The shared rate limiter as a scheduler-driven machine
(main.py lines 256-273, 369-377)

`process_single_test_case` runs on asyncio's single-threaded cooperative
scheduler: code between `await` points is atomic.  Inside
`async with semaphore` the task reads the shared `last_request_time[0]`,
computes the wait, optionally sleeps, dispatches the request (the
`session.post` await inside `run_test_case`), and only after the
response returns writes `last_request_time[0]` and releases the permit.
Each machine step below is one such atomic block; the scheduler command
list chooses the interleaving and the clock advances. -/

/-- The program counter of one case task, restricted to the limiter
region. -/
inductive TPC where
  | ready
  | sleeping (wakeAt : Nat)
  | awaitingResponse
  | finished
deriving DecidableEq

/-- Shared state of one orchestration run: the clock, the semaphore's
free-permit count, `last_request_time[0]`, the task states, and the
recorded dispatch start times. -/
structure LimState where
  clock : Nat
  semAvail : Nat
  lastReq : Option Nat
  tasks : List TPC
  dispatchTimes : List Nat
deriving DecidableEq

/-- Scheduler commands: advance the clock, run task `i`'s
acquire-check-dispatch block (main.py lines 260-270 up to the first
suspension), complete task `i`'s spacing sleep and dispatch
(line 267 return through line 270's first await), or deliver task `i`'s
response (resume after line 270: timestamp update at line 273 and permit
release).  A command whose task is not at the right point, or whose
guard fails (no free permit, sleep not yet elapsed), is a no-op. -/
inductive SchedCmd where
  | advance (d : Nat)
  | enter (i : Nat)
  | wake (i : Nat)
  | respond (i : Nat)

/-- One atomic scheduler step. -/
def stepCmd (min_delay : Nat) (st : LimState) : SchedCmd → LimState
  | .advance d => { st with clock := st.clock + d }
  | .enter i =>
      match st.tasks.get? i with
      | some .ready =>
          if st.semAvail = 0 then st
          else
            let waitTime :=
              match st.lastReq with
              | none => 0
              | some t =>
                  if st.clock - t < min_delay then min_delay - (st.clock - t) else 0
            if waitTime = 0 then
              { st with semAvail := st.semAvail - 1,
                        tasks := st.tasks.set i .awaitingResponse,
                        dispatchTimes := st.dispatchTimes ++ [st.clock] }
            else
              { st with semAvail := st.semAvail - 1,
                        tasks := st.tasks.set i (.sleeping (st.clock + waitTime)) }
      | _ => st
  | .wake i =>
      match st.tasks.get? i with
      | some (.sleeping w) =>
          if st.clock < w then st
          else
            { st with tasks := st.tasks.set i .awaitingResponse,
                      dispatchTimes := st.dispatchTimes ++ [st.clock] }
      | _ => st
  | .respond i =>
      match st.tasks.get? i with
      | some .awaitingResponse =>
          { st with lastReq := some st.clock,
                    semAvail := st.semAvail + 1,
                    tasks := st.tasks.set i .finished }
      | _ => st

/-- Initial state of a run: full semaphore (`max_concurrent` permits,
main.py line 370), no last request (line 377), all tasks before the
limiter region. -/
def initLim (max_concurrent nTasks : Nat) : LimState :=
  { clock := 0, semAvail := max_concurrent, lastReq := none,
    tasks := List.replicate nTasks .ready, dispatchTimes := [] }

/-- Run a command schedule from a state. -/
def runSched (min_delay : Nat) (st : LimState) (cmds : List SchedCmd) : LimState :=
  cmds.foldl (stepCmd min_delay) st

/-- Whether a task currently holds a semaphore permit. -/
def holdsPermit : TPC → Bool
  | .sleeping _ => true
  | .awaitingResponse => true
  | _ => false

/-- Whether a task has an outstanding (dispatched, unanswered)
request. -/
def isDispatched : TPC → Bool
  | .awaitingResponse => true
  | _ => false

/-- Number of tasks holding a permit. -/
def permitCount (l : List TPC) : Nat := (l.filter holdsPermit).length

/-- Number of simultaneously outstanding dispatches. -/
def outstandingCount (l : List TPC) : Nat := (l.filter isDispatched).length

/-- Whether consecutive entries of a sorted time list are at least
`min_delay` apart. -/
def spacedB (min_delay : Nat) : List Nat → Bool
  | a :: b :: rest => decide (a + min_delay ≤ b) && spacedB min_delay (b :: rest)
  | _ => true

/-! ### Concrete data used by witnesses and counterexamples -/

/-- A healthy response body: exit code 0, stdout `"42"`. -/
def pdOk : PistonData :=
  { run := some { stdout := some "42", stderr := some "", code := some 0 },
    compile := none }

/-- A response body whose compile section carries `syntax error` on
stderr while the run section succeeded. -/
def syntaxErrData : PistonData :=
  { run := some { stdout := some "42", stderr := some "", code := some 0 },
    compile := some { stdout := some "", stderr := some "syntax error", code := some 1 } }

/-- Response stream: two HTTP 429 statuses, then success. -/
def resp429ok : Nat → SResponse :=
  fun k => if k < 2 then .status429 else .ok pdOk

/-- A one-case directory listing. -/
def dirDemo : List String := ["input1.txt", "output1.txt"]

/-- Contents for `dirDemo`: both files hold `"42"`. -/
def fsDemo : String → Option String :=
  fun f => if f = "input1.txt" then some "42"
           else if f = "output1.txt" then some "42" else none

/-- A two-case directory listing whose first case's output file fails to
read. -/
def dirTwo : List String := ["input1.txt", "input2.txt", "output1.txt", "output2.txt"]

/-- Contents for `dirTwo`: every file readable except `output1.txt`
(its `open` raises). -/
def fsBroken : String → Option String :=
  fun f => if f = "output1.txt" then none
           else if f = "input1.txt" then some "1"
           else if f = "input2.txt" then some "2"
           else if f = "output2.txt" then some "2" else none

/-- Whether a response is a rate-limit signal: HTTP 429 status, or a
`ClientError` whose message indicates rate limiting
(main.py lines 44, 107-112). -/
def isRateLimitSignal : SResponse → Bool
  | .status429 => true
  | .clientError m => isRateLimitMsg m
  | _ => false

/-- A response body whose run section exited with code 2 and empty
stderr. -/
def pdExit2 : PistonData :=
  { run := some { stdout := some "", stderr := some "", code := some 2 },
    compile := none }

/-- A response body with no `run` section at all. -/
def pdEmpty : PistonData := { run := none, compile := none }

/-- The judged record produced for `syntaxErrData` on the `dirDemo`
case. -/
def judgedSyntaxErr : JudgedResult :=
  { stdout := "42", stderr := "", compile_error := some "syntax error",
    runtime_error := none, success := false, expected_output := "42",
    output_match := true, comparison_msg := "Output matches expected result",
    test_name := "input1", test_index := 1, test_input := "42",
    overall_success := false }

/-- The judged record for the single `dirDemo` case under `pdOk`
responses. -/
def demoJudged : JudgedResult :=
  { stdout := "42", stderr := "", compile_error := none, runtime_error := none,
    success := true, expected_output := "42", output_match := true,
    comparison_msg := "Output matches expected result", test_name := "input1",
    test_index := 1, test_input := "42", overall_success := true }

/-! ### Theorems -/

lemma mem_takeWhile_isPySpace {c : Char} :
    ∀ l : List Char, c ∈ l.takeWhile isPySpace → isPySpace c = true := by
  intro l h
  exact List.mem_takeWhile_imp h

lemma head?_dropWhile_isPySpace {c : Char} :
    ∀ l : List Char, (l.dropWhile isPySpace).head? = some c → isPySpace c = false := by
  intro l h
  induction l with
  | nil => simp [List.dropWhile] at h
  | cons x xs ih =>
    by_cases hx : isPySpace x
    · rw [List.dropWhile_cons_of_pos hx] at h
      exact ih h
    · rw [List.dropWhile_cons_of_neg hx] at h
      simp at h
      subst h
      simpa using hx

/-- `pyRstrip` removes exactly the maximal run of trailing whitespace:
the original string is the result followed by whitespace only, and the
result does not end in whitespace. -/
lemma pyRstrip_spec (a : String) :
    ∃ w, a.data = (pyRstrip a).data ++ w ∧ (∀ c ∈ w, isPySpace c = true) ∧
      (∀ c, (pyRstrip a).data.getLast? = some c → isPySpace c = false) := by
  refine ⟨(a.data.reverse.takeWhile isPySpace).reverse, ?_, ?_, ?_⟩
  · have h1 : (pyRstrip a).data = (a.data.reverse.dropWhile isPySpace).reverse := rfl
    rw [h1, ← List.reverse_append, List.takeWhile_append_dropWhile, List.reverse_reverse]
  · intro c hc
    rw [List.mem_reverse] at hc
    exact mem_takeWhile_isPySpace _ hc
  · intro c hc
    have : (pyRstrip a).data = (a.data.reverse.dropWhile isPySpace).reverse := rfl
    rw [this, List.getLast?_reverse] at hc
    exact head?_dropWhile_isPySpace _ hc

/-- C2: `compare_outputs` reports a match iff the two strings are equal
after right-trimming trailing whitespace from each; trimming removes
exactly the maximal trailing whitespace run; `"42\n\n"` against `"42"`
matches; internal differences and case differences do not match. -/
theorem compare_outputs_trimmed_equality (a e : String) :
    ((compare_outputs (some a) (some e)).fst = true ↔ pyRstrip a = pyRstrip e)
    ∧ (∃ w, a.data = (pyRstrip a).data ++ w ∧ (∀ c ∈ w, isPySpace c = true) ∧
        (∀ c, (pyRstrip a).data.getLast? = some c → isPySpace c = false))
    ∧ (compare_outputs (some "42\n\n") (some "42")).fst = true
    ∧ (compare_outputs (some "4 2") (some "42")).fst = false
    ∧ (compare_outputs (some "ABC") (some "abc")).fst = false := by
  refine ⟨?_, pyRstrip_spec a, by decide, by decide, by decide⟩
  by_cases h : pyRstrip a = pyRstrip e
  · simp [compare_outputs, normalize_output, h]
  · simp [compare_outputs, normalize_output, h]

/-- Instantiation of `compare_outputs_trimmed_equality` at the concrete
pair from the claim. -/
theorem compare_outputs_trimmed_equality_witness :
    ((compare_outputs (some "42\n\n") (some "42")).fst = true ↔
      pyRstrip "42\n\n" = pyRstrip "42")
    ∧ (compare_outputs (some "42\n\n") (some "42")).fst = true :=
  ⟨(compare_outputs_trimmed_equality "42\n\n" "42").1,
   (compare_outputs_trimmed_equality "42\n\n" "42").2.2.1⟩

/-- C10: a `None` actual output is normalised to `""`, and comparison
against expected `e` matches exactly when `e` right-trims to empty. -/
theorem compare_outputs_none_actual (e : String) :
    normalize_output none = ""
    ∧ ((compare_outputs none (some e)).fst = true ↔ pyRstrip e = "") := by
  refine ⟨rfl, ?_⟩
  by_cases h : pyRstrip e = ""
  · simp [compare_outputs, normalize_output, h]
  · have h' : ¬("" = pyRstrip e) := fun heq => h heq.symm
    simp [compare_outputs, normalize_output, h', h]

/-- Instantiation of `compare_outputs_none_actual` at a whitespace-only
expected output. -/
theorem compare_outputs_none_actual_witness :
    (compare_outputs none (some "  \n")).fst = true :=
  (compare_outputs_none_actual "  \n").2.mpr (by decide)


lemma compileStanza_preserve (oc : Option SectionData) (r : ExecResult) :
    (compileStanza oc r).runtime_error = r.runtime_error
    ∧ (r.success = false → (compileStanza oc r).success = false) := by
  cases oc with
  | none => simp [compileStanza]
  | some cd =>
      simp only [compileStanza]
      split
      · simp
      · split
        · simp
        · simp

lemma noRunStanza_some (rd : SectionData) (r : ExecResult) :
    noRunStanza (some rd) r = r := by
  simp [noRunStanza]

lemma noRunStanza_preserve (orun : Option SectionData) (r : ExecResult) :
    (noRunStanza orun r).compile_error = r.compile_error
    ∧ (r.success = false → (noRunStanza orun r).success = false) := by
  unfold noRunStanza
  split
  · simp
  · simp

/-- C9: a `run` section with nonzero exit code and empty stderr yields
`success = false` and the synthetic runtime error message
`"Process exited with code <N>"`; a missing `run` section yields
`success = false` and `"No execution output received"`. -/
theorem runtime_error_classification (d : PistonData) :
    (∀ rd, d.run = some rd → rd.code.getD (-1) ≠ 0 → rd.stderr.getD "" = "" →
        (processData d).runtime_error
          = some ("Process exited with code " ++ toString (rd.code.getD (-1)))
        ∧ (processData d).success = false)
    ∧ (d.run = none →
        (processData d).runtime_error = some "No execution output received"
        ∧ (processData d).success = false) := by
  constructor
  · intro rd hrd hcode hstderr
    have hrun : (runStanza d.run).runtime_error
          = some ("Process exited with code " ++ toString (rd.code.getD (-1)))
        ∧ (runStanza d.run).success = false := by
      rw [hrd]
      simp [runStanza, hcode, hstderr]
    have hpre := compileStanza_preserve d.compile (runStanza d.run)
    have hnd : processData d = compileStanza d.compile (runStanza d.run) := by
      rw [processData, hrd, noRunStanza_some]
    refine ⟨?_, ?_⟩
    · rw [hnd, hpre.1]
      exact hrun.1
    · rw [hnd]
      exact hpre.2 hrun.2
  · intro h
    have : processData d = { compileStanza d.compile (runStanza d.run) with
        runtime_error := some "No execution output received", success := false } := by
      rw [processData, h]
      simp [noRunStanza]
    rw [this]
    exact ⟨rfl, rfl⟩

/-- Instantiation of `runtime_error_classification`: exit code 2 with
empty stderr, and a body with no run section. -/
theorem runtime_error_classification_witness :
    (processData pdExit2).runtime_error = some ("Process exited with code " ++ toString (2 : Int))
    ∧ (processData pdEmpty).runtime_error = some "No execution output received" :=
  ⟨((runtime_error_classification pdExit2).1 _ rfl (by decide) (by decide)).1,
   ((runtime_error_classification pdEmpty).2 rfl).1⟩

/-- C8: a compile section with non-empty stderr (or, failing that, a
nonzero compile exit code) is classified as a compile error, preferring
stderr, then stdout, then a generic message, and forces
`success = false` regardless of the run section; concretely,
`compile.stderr = "syntax error"` gives `compile_error = "syntax error"`
and a judged record with `overall_success = false` even though the run
output matched. -/
theorem compile_error_classification (d : PistonData) (cd : SectionData)
    (hcd : d.compile = some cd) :
    (cd.stderr.getD "" ≠ "" →
        (processData d).compile_error = some (cd.stderr.getD "")
        ∧ (processData d).success = false)
    ∧ (cd.stderr.getD "" = "" → cd.code.getD 0 ≠ 0 →
        (processData d).compile_error = some (pyOr (cd.stdout.getD "") "Compilation failed")
        ∧ (processData d).success = false)
    ∧ (∃ r, process_single_test_case fsDemo (fun _ => SResponse.ok syntaxErrData)
          "input1.txt" "output1.txt" 1 = Except.ok r
        ∧ r.compile_error = some "syntax error" ∧ r.overall_success = false
        ∧ r.output_match = true) := by
  have hnp := noRunStanza_preserve d.run (compileStanza d.compile (runStanza d.run))
  refine ⟨?_, ?_, ⟨judgedSyntaxErr, by rfl, rfl, rfl, rfl⟩⟩
  · intro hne
    have hcs : (compileStanza d.compile (runStanza d.run)).compile_error
          = some (cd.stderr.getD "")
        ∧ (compileStanza d.compile (runStanza d.run)).success = false := by
      rw [hcd]
      simp [compileStanza, hne]
    refine ⟨?_, ?_⟩
    · rw [processData, hnp.1]
      exact hcs.1
    · rw [processData]
      exact hnp.2 hcs.2
  · intro heq hnz
    have hcs : (compileStanza d.compile (runStanza d.run)).compile_error
          = some (pyOr (cd.stdout.getD "") "Compilation failed")
        ∧ (compileStanza d.compile (runStanza d.run)).success = false := by
      rw [hcd]
      simp [compileStanza, heq, hnz]
    refine ⟨?_, ?_⟩
    · rw [processData, hnp.1]
      exact hcs.1
    · rw [processData]
      exact hnp.2 hcs.2

/-- Instantiation of `compile_error_classification` at
`syntaxErrData`. -/
theorem compile_error_classification_witness :
    (processData syntaxErrData).compile_error = some "syntax error"
    ∧ (processData syntaxErrData).success = false :=
  (compile_error_classification syntaxErrData _ rfl).1 (by decide)

/-- C7: a `ClientError` whose message does not indicate rate limiting is
terminal: it is returned after that single attempt with no backoff
sleeps, as a failure outcome carrying the underlying message (and any
other exception is likewise terminal, carrying its message
unmodified). -/
theorem transport_error_terminal (resp : Nat → SResponse) (mr rd : Nat) (m : String) :
    (resp 0 = SResponse.clientError m → isRateLimitMsg m = false →
        run_test_case resp mr rd = (httpErrorResult m, []))
    ∧ (resp 0 = SResponse.otherExn m →
        run_test_case resp mr rd = (exnResult m, [])) := by
  constructor
  · intro h hm
    cases mr with
    | zero => simp [run_test_case, run_loop, h]
    | succ k => simp [run_test_case, run_loop, h, hm]
  · intro h
    cases mr with
    | zero => simp [run_test_case, run_loop, h]
    | succ k => simp [run_test_case, run_loop, h]

/-- Instantiation of `transport_error_terminal` at a connection
error. -/
theorem transport_error_terminal_witness :
    run_test_case (fun _ => SResponse.clientError "connection refused") 3 1
      = (httpErrorResult "connection refused", []) :=
  (transport_error_terminal (fun _ => SResponse.clientError "connection refused")
    3 1 "connection refused").1 rfl (by decide)

lemma run_loop_stop (resp : Nat → SResponse) (rd a rem : Nat)
    (h : isRateLimitSignal (resp a) = false) :
    run_loop resp rd a rem = (noRetryResult (resp a), []) := by
  cases hr : resp a with
  | ok d => cases rem <;> simp [run_loop, hr, noRetryResult]
  | status429 =>
      rw [hr] at h
      simp [isRateLimitSignal] at h
  | clientError m =>
      rw [hr] at h
      simp only [isRateLimitSignal] at h
      cases rem <;> simp [run_loop, hr, noRetryResult, h]
  | otherExn m => cases rem <;> simp [run_loop, hr, noRetryResult]

lemma run_loop_rl_prefix (resp : Nat → SResponse) (rd : Nat) :
    ∀ (k a rem : Nat), k ≤ rem →
      (∀ j, j < k → isRateLimitSignal (resp (a + j)) = true) →
      isRateLimitSignal (resp (a + k)) = false →
      run_loop resp rd a rem
        = (noRetryResult (resp (a + k)), (idxFrom a k).map (fun j => rd * 2 ^ j)) := by
  intro k
  induction k with
  | zero =>
      intro a rem _ _ hstop
      simpa [idxFrom] using run_loop_stop resp rd a rem (by simpa using hstop)
  | succ n ih =>
      intro a rem hk hall hstop
      obtain ⟨r', rfl⟩ : ∃ r', rem = r' + 1 := ⟨rem - 1, by omega⟩
      have h0 : isRateLimitSignal (resp a) = true := by simpa using hall 0 (by omega)
      have hrec := ih (a + 1) r' (by omega)
        (fun j hj => by
          have := hall (j + 1) (by omega)
          rwa [show a + (j + 1) = a + 1 + j from by omega] at this)
        (by rwa [show a + 1 + n = a + (n + 1) from by omega])
      have hidx : a + (n + 1) = a + 1 + n := by omega
      rw [hidx]
      cases hr : resp a with
      | ok d =>
          rw [hr] at h0
          simp [isRateLimitSignal] at h0
      | otherExn m =>
          rw [hr] at h0
          simp [isRateLimitSignal] at h0
      | status429 =>
          simp [run_loop, hr, hrec, idxFrom]
      | clientError m =>
          rw [hr] at h0
          simp only [isRateLimitSignal] at h0
          simp [run_loop, hr, h0, hrec, idxFrom]

lemma run_loop_sleep_schedule (resp : Nat → SResponse) (rd : Nat) :
    ∀ (rem a : Nat), ∃ n, (run_loop resp rd a rem).2
        = (idxFrom a n).map (fun j => rd * 2 ^ j) ∧ n ≤ rem := by
  intro rem
  induction rem with
  | zero =>
      intro a
      exact ⟨0, by cases hr : resp a <;> simp [run_loop, hr, idxFrom], by omega⟩
  | succ r' ih =>
      intro a
      cases hr : resp a with
      | ok d => exact ⟨0, by simp [run_loop, hr, idxFrom], by omega⟩
      | otherExn m => exact ⟨0, by simp [run_loop, hr, idxFrom], by omega⟩
      | status429 =>
          obtain ⟨n, hn, hle⟩ := ih (a + 1)
          exact ⟨n + 1, by simp [run_loop, hr, hn, idxFrom], by omega⟩
      | clientError m =>
          by_cases hm : isRateLimitMsg m
          · obtain ⟨n, hn, hle⟩ := ih (a + 1)
            exact ⟨n + 1, by simp [run_loop, hr, hm, hn, idxFrom], by omega⟩
          · exact ⟨0, by simp [run_loop, hr, hm, idxFrom], by omega⟩

lemma run_loop_all429 (resp : Nat → SResponse) (rd : Nat) :
    ∀ (rem a : Nat), (∀ k, k ≤ rem → resp (a + k) = SResponse.status429) →
      run_loop resp rd a rem
        = (rateLimitedResult, (idxFrom a rem).map (fun j => rd * 2 ^ j)) := by
  intro rem
  induction rem with
  | zero =>
      intro a h
      have h0 : resp a = SResponse.status429 := by simpa using h 0 (by omega)
      simp [run_loop, h0, idxFrom]
  | succ r' ih =>
      intro a h
      have h0 : resp a = SResponse.status429 := by simpa using h 0 (by omega)
      have hrec := ih (a + 1) (fun k hk => by
        have := h (k + 1) (by omega)
        rwa [show a + (k + 1) = a + 1 + k from by omega] at this)
      simp [run_loop, h0, hrec, idxFrom]

/-- C3 (amended): the loop retries exactly on rate-limit signals (HTTP
429 status, or a `ClientError` whose message indicates rate limiting),
sleeping `retry_delay * 2 ^ attempt` before each retry, for at most
`max_retries` retries beyond the first attempt; exhausting every allowed
attempt on HTTP 429 statuses yields a failure with message
`"Rate limit exceeded"`; the sequence [429, 429, 200] with 2 allowed
retries yields the successful outcome after backoff sleeps `[1, 2]` of
strictly increasing duration.  (When the final rate-limit signal is a
transport error rather than a 429 status, the exhausted message is
`"HTTP error: <msg>"` instead — see the counterexample.) -/
theorem run_test_case_retry_policy (resp : Nat → SResponse) (mr rd : Nat) :
    (isRateLimitSignal (resp 0) = false →
        run_test_case resp mr rd = (noRetryResult (resp 0), []))
    ∧ (∀ k, k ≤ mr → (∀ j, j < k → isRateLimitSignal (resp j) = true) →
        isRateLimitSignal (resp k) = false →
        run_test_case resp mr rd
          = (noRetryResult (resp k), (idxFrom 0 k).map (fun j => rd * 2 ^ j)))
    ∧ (∃ n, n ≤ mr ∧ (run_test_case resp mr rd).2
          = (idxFrom 0 n).map (fun j => rd * 2 ^ j))
    ∧ ((∀ k, k ≤ mr → resp k = SResponse.status429) →
        run_test_case resp mr rd
          = (rateLimitedResult, (idxFrom 0 mr).map (fun j => rd * 2 ^ j)))
    ∧ run_test_case resp429ok 2 1 = (processData pdOk, [1, 2]) := by
  refine ⟨?_, ?_, ?_, ?_, by rfl⟩
  · intro h
    exact run_loop_stop resp rd 0 mr h
  · intro k hk hall hstop
    have := run_loop_rl_prefix resp rd k 0 mr hk
      (fun j hj => by simpa using hall j hj) (by simpa using hstop)
    simpa [run_test_case] using this
  · obtain ⟨n, hn, hle⟩ := run_loop_sleep_schedule resp rd mr 0
    exact ⟨n, hle, hn⟩
  · intro h
    have := run_loop_all429 resp rd mr 0 (fun k hk => by simpa using h k hk)
    simpa [run_test_case] using this

/-- C3 counterexample: four consecutive rate-limited *transport errors*
exhaust all retries, yet the final message is
`"HTTP error: 429 too many requests"`, not `"Rate limit exceeded"` as
the claim states for every rate-limited sequence. -/
theorem run_test_case_exhaustion_message_cex :
    isRateLimitMsg "429 too many requests" = true
    ∧ run_test_case (fun _ => SResponse.clientError "429 too many requests") 3 1
        = (httpErrorResult "429 too many requests", [1, 2, 4])
    ∧ httpErrorResult "429 too many requests" ≠ rateLimitedResult := by
  exact ⟨by decide, by rfl, by decide⟩

/-- Instantiation of `run_test_case_retry_policy`: the concrete
[429, 429, 200] schedule, and a first-attempt success with no
sleeps. -/
theorem run_test_case_retry_policy_witness :
    run_test_case resp429ok 2 1 = (processData pdOk, [1, 2])
    ∧ run_test_case (fun _ => SResponse.ok pdOk) 3 1
        = (noRetryResult (SResponse.ok pdOk), []) :=
  ⟨(run_test_case_retry_policy resp429ok 2 1).2.2.2.2,
   (run_test_case_retry_policy (fun _ => SResponse.ok pdOk) 3 1).1 (by decide)⟩

lemma filter_length_set (p : TPC → Bool) :
    ∀ (l : List TPC) (i : Nat) (v a : TPC), l.get? i = some v →
      ((l.set i a).filter p).length + (if p v = true then 1 else 0)
        = (l.filter p).length + (if p a = true then 1 else 0) := by
  intro l
  induction l with
  | nil => intro i v a h; simp at h
  | cons x xs ih =>
      intro i v a h
      cases i with
      | zero =>
          have hv : v = x := by
            have : x = v := by simpa using h
            exact this.symm
          subst hv
          by_cases hx : p v = true <;> by_cases ha : p a = true <;>
            simp [List.set, List.filter_cons, hx, ha]
      | succ j =>
          have hj : xs.get? j = some v := by simpa using h
          have hrec := ih j v a hj
          by_cases hx : p x = true <;>
            simp [List.set, List.filter_cons, hx] <;> omega

lemma permitCount_set_awaiting (l : List TPC) (i : Nat) (v : TPC)
    (hg : l.get? i = some v) (hv : holdsPermit v = false) :
    permitCount (l.set i TPC.awaitingResponse) = permitCount l + 1 := by
  have hset := filter_length_set holdsPermit l i v TPC.awaitingResponse hg
  have ht : holdsPermit TPC.awaitingResponse = true := rfl
  rw [hv, ht] at hset
  simp at hset
  simpa [permitCount] using hset

lemma permitCount_set_sleeping (l : List TPC) (i : Nat) (v : TPC) (w : Nat)
    (hg : l.get? i = some v) (hv : holdsPermit v = false) :
    permitCount (l.set i (TPC.sleeping w)) = permitCount l + 1 := by
  have hset := filter_length_set holdsPermit l i v (TPC.sleeping w) hg
  have ht : holdsPermit (TPC.sleeping w) = true := rfl
  rw [hv, ht] at hset
  simp at hset
  simpa [permitCount] using hset

lemma permitCount_set_wake (l : List TPC) (i : Nat) (w : Nat)
    (hg : l.get? i = some (TPC.sleeping w)) :
    permitCount (l.set i TPC.awaitingResponse) = permitCount l := by
  have hset := filter_length_set holdsPermit l i (TPC.sleeping w) TPC.awaitingResponse hg
  have ht : holdsPermit TPC.awaitingResponse = true := rfl
  have hw : holdsPermit (TPC.sleeping w) = true := rfl
  rw [hw, ht] at hset
  simp at hset
  simpa [permitCount] using hset

lemma permitCount_set_finished (l : List TPC) (i : Nat)
    (hg : l.get? i = some TPC.awaitingResponse) :
    permitCount (l.set i TPC.finished) + 1 = permitCount l := by
  have hset := filter_length_set holdsPermit l i TPC.awaitingResponse TPC.finished hg
  have ht : holdsPermit TPC.awaitingResponse = true := rfl
  have hf : holdsPermit TPC.finished = false := rfl
  rw [ht, hf] at hset
  simp at hset
  simpa [permitCount] using hset

lemma stepCmd_permits (md mc : Nat) (st : LimState) (c : SchedCmd)
    (h : st.semAvail + permitCount st.tasks = mc) :
    (stepCmd md st c).semAvail + permitCount (stepCmd md st c).tasks = mc := by
  cases c with
  | advance d => simpa [stepCmd] using h
  | enter i =>
      simp only [stepCmd]
      cases hg : st.tasks.get? i with
      | none => simpa using h
      | some t =>
          cases t with
          | ready =>
              by_cases hs : st.semAvail = 0
              · simpa [hs] using h
              · simp only [hs, if_false]
                split
                · dsimp only
                  rw [permitCount_set_awaiting st.tasks i TPC.ready hg rfl]
                  omega
                · dsimp only
                  rw [permitCount_set_sleeping st.tasks i TPC.ready _ hg rfl]
                  omega
          | sleeping w => simpa using h
          | awaitingResponse => simpa using h
          | finished => simpa using h
  | wake i =>
      simp only [stepCmd]
      cases hg : st.tasks.get? i with
      | none => simpa using h
      | some t =>
          cases t with
          | ready => simpa using h
          | sleeping w =>
              by_cases hc : st.clock < w
              · simpa [hc] using h
              · simp only [hc, if_false]
                rw [permitCount_set_wake st.tasks i w hg]
                omega
          | awaitingResponse => simpa using h
          | finished => simpa using h
  | respond i =>
      simp only [stepCmd]
      cases hg : st.tasks.get? i with
      | none => simpa using h
      | some t =>
          cases t with
          | ready => simpa using h
          | sleeping w => simpa using h
          | awaitingResponse =>
              have hset := permitCount_set_finished st.tasks i hg
              dsimp only
              omega
          | finished => simpa using h

lemma runSched_permits (md mc : Nat) :
    ∀ (cmds : List SchedCmd) (st : LimState),
      st.semAvail + permitCount st.tasks = mc →
      (runSched md st cmds).semAvail + permitCount (runSched md st cmds).tasks = mc := by
  intro cmds
  induction cmds with
  | nil => intro st h; simpa [runSched] using h
  | cons c cs ih =>
      intro st h
      have hstep := stepCmd_permits md mc st c h
      simpa [runSched, List.foldl] using ih (stepCmd md st c) hstep

lemma outstanding_le_permit : ∀ l : List TPC, outstandingCount l ≤ permitCount l := by
  intro l
  induction l with
  | nil => simp [outstandingCount, permitCount]
  | cons x xs ih =>
      simp only [outstandingCount, permitCount] at ih ⊢
      cases x <;> simp [List.filter_cons, isDispatched, holdsPermit] <;> omega

lemma permitCount_replicate (n : Nat) : permitCount (List.replicate n TPC.ready) = 0 := by
  induction n with
  | zero => rfl
  | succ k ih =>
      rw [List.replicate_succ]
      simp [permitCount, List.filter_cons, holdsPermit, ih]

/-- C5 (amended): the counting semaphore does bound concurrency — in
every state reachable under any scheduling of any number of case tasks,
at most `max_concurrent` dispatches are outstanding simultaneously.
The `min_delay` spacing half of the claim fails: the spacing check,
dispatch, and shared-timestamp update do not form a critical section
(see the counterexample). -/
theorem rate_limiter_concurrency_ceiling (mc n md : Nat) (cmds : List SchedCmd) :
    outstandingCount ((runSched md (initLim mc n) cmds).tasks) ≤ mc := by
  have hinit : (initLim mc n).semAvail + permitCount (initLim mc n).tasks = mc := by
    simp [initLim, permitCount_replicate]
  have hinv := runSched_permits md mc cmds (initLim mc n) hinit
  have hle := outstanding_le_permit ((runSched md (initLim mc n) cmds).tasks)
  omega

/-- C5 counterexample: with `max_concurrent = 2` and `min_delay = 1`,
running the two tasks' acquire-check-dispatch blocks back to back — a
legal interleaving, because the shared `last_request_time` is written
only after a response returns, not under any mutual exclusion with the
spacing check — dispatches both requests at clock 0.  The sorted
dispatch times `[0, 0]` violate the claimed `min_delay` spacing, so the
check/dispatch/update sequence is not one critical section. -/
theorem rate_limiter_spacing_race_cex :
    (runSched 1 (initLim 2 2) [SchedCmd.enter 0, SchedCmd.enter 1]).dispatchTimes = [0, 0]
    ∧ spacedB 1 [0, 0] = false := by
  exact ⟨by rfl, by rfl⟩

lemma process_ok_of_reads (fs : String → Option String) (resp : Nat → SResponse)
    (inf outf : String) (i : Nat) (h1 : fs inf ≠ none) (h2 : fs outf ≠ none) :
    exceptOk (process_single_test_case fs resp inf outf i) = true := by
  cases hi : fs inf with
  | none => exact absurd hi h1
  | some a =>
      cases ho : fs outf with
      | none => exact absurd ho h2
      | some b => simp [process_single_test_case, hi, ho, exceptOk]

lemma process_error_of_read_fail (fs : String → Option String) (resp : Nat → SResponse)
    (inf outf : String) (i : Nat) (h : fs inf = none ∨ fs outf = none) :
    exceptOk (process_single_test_case fs resp inf outf i) = false := by
  rcases h with h | h
  · simp [process_single_test_case, h, exceptOk]
  · cases hi : fs inf with
    | none => simp [process_single_test_case, hi, exceptOk]
    | some a => simp [process_single_test_case, hi, h, exceptOk]

lemma gatherE_error_of_mem {α : Type} :
    ∀ (lst : List (Except String α)) (x : Except String α),
      x ∈ lst → exceptOk x = false → exceptOk (gatherE lst) = false := by
  intro lst
  induction lst with
  | nil => intro x h _; simp at h
  | cons y ys ih =>
      intro x hx hfalse
      cases hy : y with
      | error e => simp [gatherE, hy, exceptOk]
      | ok v =>
          rcases List.mem_cons.mp hx with rfl | hmem
          · rw [hy] at hfalse
            simp [exceptOk] at hfalse
          · have hrec := ih x hmem hfalse
            cases hg : gatherE ys with
            | error e => simp [gatherE, hy, hg, exceptOk]
            | ok vs =>
                rw [hg] at hrec
                simp [exceptOk] at hrec

lemma mem_enumFrom {α : Type} :
    ∀ (l : List α) (p : α) (i : Nat), p ∈ l → ∃ j, (j, p) ∈ enumFrom i l := by
  intro l
  induction l with
  | nil => intro p i h; simp at h
  | cons x xs ih =>
      intro p i h
      rcases List.mem_cons.mp h with rfl | hmem
      · exact ⟨i, by simp [enumFrom]⟩
      · obtain ⟨j, hj⟩ := ih p (i + 1) hmem
        exact ⟨j, by simp [enumFrom, hj]⟩

/-- C6 (amended): failures of the remote execution call never escape the
case runner — whenever both of a case's files load, the runner returns a
judged record whatever the service does; but a filesystem error while
loading a case's files is NOT contained: it propagates out of the case
runner, and the whole orchestration returns that error instead of any
judged records, aborting the siblings' results as well. -/
theorem case_runner_error_containment (fs : String → Option String) :
    (∀ (resp : Nat → SResponse) (inf outf : String) (i : Nat),
        fs inf ≠ none → fs outf ≠ none →
        exceptOk (process_single_test_case fs resp inf outf i) = true)
    ∧ (∀ (dir : List String) (oracle : Nat → Nat → SResponse) (p : String × String),
        p ∈ (get_test_case_files dir).1 → (fs p.1 = none ∨ fs p.2 = none) →
        exceptOk (run_test_cases_from_files dir fs oracle) = false) := by
  constructor
  · intro resp inf outf i h1 h2
    exact process_ok_of_reads fs resp inf outf i h1 h2
  · intro dir oracle p hp hfail
    have hne : ¬((get_test_case_files dir).1.length = 0) := by
      intro h0
      rw [List.length_eq_zero] at h0
      rw [h0] at hp
      simp at hp
    obtain ⟨j, hj⟩ := mem_enumFrom (get_test_case_files dir).1 p 1 hp
    have htask : process_single_test_case fs (oracle j) p.1 p.2 j
        ∈ (enumFrom 1 (get_test_case_files dir).1).map
            (fun ip => process_single_test_case fs (oracle ip.1) ip.2.1 ip.2.2 ip.1) := by
      have := List.mem_map_of_mem
        (fun ip : Nat × String × String =>
          process_single_test_case fs (oracle ip.1) ip.2.1 ip.2.2 ip.1) hj
      simpa using this
    have herr := process_error_of_read_fail fs (oracle j) p.1 p.2 j hfail
    have hg := gatherE_error_of_mem _ _ htask herr
    simp only [run_test_cases_from_files]
    rw [if_neg hne]
    cases hgather : gatherE ((enumFrom 1 (get_test_case_files dir).1).map
        (fun ip => process_single_test_case fs (oracle ip.1) ip.2.1 ip.2.2 ip.1)) with
    | error e => simp [exceptOk]
    | ok vs =>
        rw [hgather] at hg
        simp [exceptOk] at hg

/-- C6 counterexample: in the two-case directory `dirTwo` where
`output1.txt` fails to read, the orchestration returns the filesystem
error itself — the failure escapes the case-runner boundary and no
judged record is delivered even for the healthy sibling case 2, whose
own run would have succeeded. -/
theorem filesystem_error_aborts_run_cex :
    run_test_cases_from_files dirTwo fsBroken (fun _ _ => SResponse.ok pdOk)
      = Except.error "[Errno 2] No such file or directory: output1.txt"
    ∧ exceptOk (process_single_test_case fsBroken (fun _ => SResponse.ok pdOk)
        "input2.txt" "output2.txt" 2) = true := by
  exact ⟨by rfl, by rfl⟩

/-- Instantiation of `case_runner_error_containment` at the demo
directory and at the broken two-case directory. -/
theorem case_runner_error_containment_witness :
    exceptOk (process_single_test_case fsDemo (fun _ => SResponse.ok pdOk)
        "input1.txt" "output1.txt" 1) = true
    ∧ exceptOk (run_test_cases_from_files dirTwo fsBroken
        (fun _ _ => SResponse.ok pdOk)) = false :=
  ⟨(case_runner_error_containment fsDemo).1 (fun _ => SResponse.ok pdOk)
      "input1.txt" "output1.txt" 1 (by decide) (by decide),
   (case_runner_error_containment fsBroken).2 dirTwo (fun _ _ => SResponse.ok pdOk)
      ("input1.txt", "output1.txt") (by decide) (Or.inr (by decide))⟩

lemma lexLe_total : ∀ as bs : List Char, lexLe as bs = true ∨ lexLe bs as = true := by
  intro as
  induction as with
  | nil => intro bs; left; simp [lexLe]
  | cons a as' ih =>
      intro bs
      cases bs with
      | nil => right; simp [lexLe]
      | cons b bs' =>
          by_cases h1 : a.toNat < b.toNat
          · left; simp [lexLe, h1]
          · by_cases h2 : b.toNat < a.toNat
            · right; simp [lexLe, h2]
            · rcases ih bs' with h | h
              · left; simp [lexLe, h1, h2, h]
              · right; simp [lexLe, h1, h2, h]

lemma lexLe_trans : ∀ as bs cs : List Char,
    lexLe as bs = true → lexLe bs cs = true → lexLe as cs = true := by
  intro as
  induction as with
  | nil => intro bs cs _ _; simp [lexLe]
  | cons a as' ih =>
      intro bs cs h1 h2
      cases bs with
      | nil => simp [lexLe] at h1
      | cons b bs' =>
          cases cs with
          | nil => simp [lexLe] at h2
          | cons c cs' =>
              by_cases hab : a.toNat < b.toNat
              · by_cases hbc : b.toNat < c.toNat
                · have hac : a.toNat < c.toNat := by omega
                  simp [lexLe, hac]
                · by_cases hcb : c.toNat < b.toNat
                  · simp [lexLe, hbc, hcb] at h2
                  · have hac : a.toNat < c.toNat := by omega
                    simp [lexLe, hac]
              · by_cases hba : b.toNat < a.toNat
                · simp [lexLe, hab, hba] at h1
                · simp only [lexLe, if_neg hab, if_neg hba] at h1
                  by_cases hbc : b.toNat < c.toNat
                  · have hac : a.toNat < c.toNat := by omega
                    simp [lexLe, hac]
                  · by_cases hcb : c.toNat < b.toNat
                    · simp [lexLe, hbc, hcb] at h2
                    · simp only [lexLe, if_neg hbc, if_neg hcb] at h2
                      have hac1 : ¬a.toNat < c.toNat := by omega
                      have hac2 : ¬c.toNat < a.toNat := by omega
                      simp only [lexLe, if_neg hac1, if_neg hac2]
                      exact ih bs' cs' h1 h2

instance : IsTotal String strLeR := ⟨fun a b => lexLe_total a.data b.data⟩

instance : IsTrans String strLeR := ⟨fun a b c => lexLe_trans a.data b.data c.data⟩

lemma pairs_fst_sublist (dir : List String) :
    ∀ l : List String,
      List.Sublist ((l.filterMap
        (fun f => if outName f ∈ dir then some (f, outName f) else none)).map Prod.fst) l := by
  intro l
  induction l with
  | nil => simp
  | cons x xs ih =>
      rw [List.filterMap_cons]
      by_cases hx : outName x ∈ dir
      · simp only [if_pos hx, List.map_cons]
        exact List.Sublist.cons₂ x ih
      · simp only [if_neg hx]
        exact List.Sublist.cons x ih

lemma mem_sorted_inputs (dir : List String) (f : String) :
    f ∈ List.insertionSort strLeR (dir.filter globInputTxt) ↔
      f ∈ dir ∧ globInputTxt f = true := by
  rw [(List.perm_insertionSort strLeR _).mem_iff, List.mem_filter]

lemma mem_pairs_iff (dir : List String) (f g : String) :
    (f, g) ∈ (get_test_case_files dir).1 ↔
      f ∈ dir ∧ globInputTxt f = true ∧ g = outName f ∧ outName f ∈ dir := by
  simp only [get_test_case_files]
  rw [List.mem_filterMap]
  constructor
  · rintro ⟨a, ha, hfa⟩
    by_cases hout : outName a ∈ dir
    · rw [if_pos hout] at hfa
      have : a = f ∧ outName a = g := by
        constructor
        · exact congrArg Prod.fst (Option.some.inj hfa)
        · exact congrArg Prod.snd (Option.some.inj hfa)
      obtain ⟨rfl, hg⟩ := this
      have := (mem_sorted_inputs dir a).mp ha
      exact ⟨this.1, this.2, hg.symm, hout⟩
    · rw [if_neg hout] at hfa
      exact absurd hfa (by simp)
  · rintro ⟨hf, hglob, rfl, hout⟩
    exact ⟨f, (mem_sorted_inputs dir f).mpr ⟨hf, hglob⟩, by rw [if_pos hout]⟩

lemma warn_of_missing (dir : List String) (f : String)
    (hf : f ∈ dir) (hglob : globInputTxt f = true) (hout : outName f ∉ dir) :
    warnMsg f ∈ (get_test_case_files dir).2 := by
  simp only [get_test_case_files]
  rw [List.mem_filterMap]
  exact ⟨f, (mem_sorted_inputs dir f).mpr ⟨hf, hglob⟩, by rw [if_neg hout]⟩

/-- C4 (amended): discovery pairs exactly the glob-matched inputs whose
matching output exists in the directory; an input with a missing output
appears in no pair and leaves a recorded warning; and the pairs come in
Python's sorted order of the input file names — lexicographic code-point
order, which agrees with ascending test number N only when the numbers
have equally many digits (see the counterexample). -/
theorem get_test_case_files_pairing (dir : List String) :
    ((get_test_case_files dir).1.map Prod.fst).Sorted strLeR
    ∧ (∀ f g, (f, g) ∈ (get_test_case_files dir).1 ↔
        f ∈ dir ∧ globInputTxt f = true ∧ g = outName f ∧ outName f ∈ dir)
    ∧ (∀ f, f ∈ dir → globInputTxt f = true → outName f ∉ dir →
        (∀ g, (f, g) ∉ (get_test_case_files dir).1)
        ∧ warnMsg f ∈ (get_test_case_files dir).2) := by
  refine ⟨?_, fun f g => mem_pairs_iff dir f g, fun f hf hglob hout => ⟨?_, warn_of_missing dir f hf hglob hout⟩⟩
  · have hsorted : (List.insertionSort strLeR (dir.filter globInputTxt)).Sorted strLeR :=
      List.sorted_insertionSort strLeR _
    exact List.Pairwise.sublist (pairs_fst_sublist dir _) hsorted
  · intro g hg
    exact hout ((mem_pairs_iff dir f g).mp hg).2.2.2

/-- C4 counterexample: with pairs 2 and 10 both present, discovery
returns them in lexicographic file-name order — test numbers `[10, 2]`,
not ascending in N as the claim states. -/
theorem get_test_case_files_order_cex :
    (get_test_case_files ["input10.txt", "input2.txt", "output10.txt", "output2.txt"]).1
      = [("input10.txt", "output10.txt"), ("input2.txt", "output2.txt")]
    ∧ testNum "input10.txt" = 10 ∧ testNum "input2.txt" = 2
    ∧ ascB [10, 2] = false := by
  exact ⟨by rfl, by rfl, by rfl, by rfl⟩

/-- Instantiation of `get_test_case_files_pairing` at a directory in
which `input3.txt` has no `output3.txt`: pair 3 is dropped with a
warning while pair 1 survives. -/
theorem get_test_case_files_pairing_witness :
    warnMsg "input3.txt" ∈ (get_test_case_files
      ["input1.txt", "input2.txt", "input3.txt", "output1.txt", "output2.txt"]).2
    ∧ ("input1.txt", "output1.txt") ∈ (get_test_case_files
      ["input1.txt", "input2.txt", "input3.txt", "output1.txt", "output2.txt"]).1 :=
  ⟨((get_test_case_files_pairing
      ["input1.txt", "input2.txt", "input3.txt", "output1.txt", "output2.txt"]).2.2
      "input3.txt" (by decide) (by decide) (by decide)).2,
   ((get_test_case_files_pairing
      ["input1.txt", "input2.txt", "input3.txt", "output1.txt", "output2.txt"]).2.1
      "input1.txt" "output1.txt").mpr ⟨by decide, by decide, by decide, by decide⟩⟩

lemma process_ok_index (fs : String → Option String) (resp : Nat → SResponse)
    (a b : String) (i : Nat) (r : JudgedResult)
    (h : process_single_test_case fs resp a b i = Except.ok r) : r.test_index = i := by
  cases hi : fs a with
  | none => simp [process_single_test_case, hi] at h
  | some s =>
      cases ho : fs b with
      | none => simp [process_single_test_case, hi, ho] at h
      | some t =>
          simp only [process_single_test_case, hi, ho] at h
          obtain rfl := Except.ok.inj h
          rfl

lemma idxFrom_length : ∀ (n i : Nat), (idxFrom i n).length = n := by
  intro n
  induction n with
  | zero => intro i; rfl
  | succ m ih => intro i; simp [idxFrom, ih]

lemma mem_idxFrom_ge : ∀ (n i x : Nat), x ∈ idxFrom i n → i ≤ x := by
  intro n
  induction n with
  | zero => intro i x h; simp [idxFrom] at h
  | succ m ih =>
      intro i x h
      rcases List.mem_cons.mp h with rfl | h
      · exact Nat.le_refl x
      · have := ih (i + 1) x h
        omega

lemma idxFrom_sorted : ∀ (n i : Nat), (idxFrom i n).Pairwise (· ≤ ·) := by
  intro n
  induction n with
  | zero => intro i; simp [idxFrom]
  | succ m ih =>
      intro i
      rw [idxFrom, List.pairwise_cons]
      refine ⟨fun x hx => ?_, ih (i + 1)⟩
      have := mem_idxFrom_ge m (i + 1) x hx
      omega

lemma idxFrom_nodup : ∀ (n i : Nat), (idxFrom i n).Nodup := by
  intro n
  induction n with
  | zero => intro i; simp [idxFrom]
  | succ m ih =>
      intro i
      rw [idxFrom, List.nodup_cons]
      refine ⟨fun hx => ?_, ih (i + 1)⟩
      have := mem_idxFrom_ge m (i + 1) i hx
      omega

lemma gather_process (fs : String → Option String) (oracle : Nat → Nat → SResponse) :
    ∀ (ps : List (String × String)) (i : Nat) (results : List JudgedResult),
      gatherE ((enumFrom i ps).map
        (fun ip => process_single_test_case fs (oracle ip.1) ip.2.1 ip.2.2 ip.1))
        = Except.ok results →
      results.length = ps.length
      ∧ results.map (fun r => r.test_index) = idxFrom i ps.length
      ∧ ∀ k p, ps.get? k = some p →
          ∃ r, process_single_test_case fs (oracle (i + k)) p.1 p.2 (i + k) = Except.ok r
            ∧ results.get? k = some r := by
  intro ps
  induction ps with
  | nil =>
      intro i results h
      simp only [enumFrom, List.map_nil, gatherE] at h
      obtain rfl := (Except.ok.inj h).symm
      refine ⟨rfl, rfl, ?_⟩
      intro k p hk
      simp at hk
  | cons q qs ih =>
      intro i results h
      simp only [enumFrom, List.map_cons] at h
      cases hx : process_single_test_case fs (oracle i) q.1 q.2 i with
      | error e =>
          simp only [gatherE, hx] at h
          exact Except.noConfusion h
      | ok v =>
          cases hg : gatherE ((enumFrom (i + 1) qs).map
              (fun ip => process_single_test_case fs (oracle ip.1) ip.2.1 ip.2.2 ip.1)) with
          | error e =>
              simp only [gatherE, hx, hg] at h
              exact Except.noConfusion h
          | ok vs =>
              simp only [gatherE, hx, hg] at h
              obtain rfl := (Except.ok.inj h).symm
              obtain ⟨hlen, hmap, hidx⟩ := ih (i + 1) vs hg
              have hv := process_ok_index fs (oracle i) q.1 q.2 i v hx
              refine ⟨by simp [hlen], ?_, ?_⟩
              · simp only [List.map_cons, List.length_cons, idxFrom, hv, hmap]
              · intro k p hk
                cases k with
                | zero =>
                    have hq : q = p := by simpa using hk
                    subst hq
                    exact ⟨v, by simpa using hx, by simp⟩
                | succ m =>
                    have hk' : qs.get? m = some p := by simpa using hk
                    obtain ⟨r, hr1, hr2⟩ := hidx m p hk'
                    refine ⟨r, ?_, by simpa using hr2⟩
                    rwa [show i + (m + 1) = i + 1 + m from by omega]

lemma eq_of_perm_sorted_idx :
    ∀ (m l : List JudgedResult), l.Perm m → l.Sorted idxLe → m.Sorted idxLe →
      (m.map (fun r => r.test_index)).Nodup → l = m := by
  intro m
  induction m with
  | nil =>
      intro l hp _ _ _
      have : l.length = 0 := by simpa using hp.length_eq
      exact List.eq_nil_of_length_eq_zero this
  | cons b m' ih =>
      intro l hp hsl hsm hnd
      cases l with
      | nil =>
          have := hp.length_eq
          simp at this
      | cons a l' =>
          rw [List.sorted_cons] at hsl hsm
          rw [List.map_cons, List.nodup_cons] at hnd
          by_cases hab : a = b
          · subst hab
            rw [ih l' hp.cons_inv hsl.2 hsm.2 hnd.2]
          · have ha : a ∈ m' := by
              rcases List.mem_cons.mp (hp.subset (List.mem_cons_self a l')) with h | h
              · exact absurd h hab
              · exact h
            have hb : b ∈ l' := by
              rcases List.mem_cons.mp (hp.symm.subset (List.mem_cons_self b m')) with h | h
              · exact absurd h.symm hab
              · exact h
            have h1 : a.test_index ≤ b.test_index := hsl.1 b hb
            have h2 : b.test_index ≤ a.test_index := hsm.1 a ha
            have heq : a.test_index = b.test_index := Nat.le_antisymm h1 h2
            exact absurd (heq ▸ List.mem_map_of_mem (fun r => r.test_index) ha) hnd.1

/-- C1: whenever the orchestrator returns a result list, it has exactly
one judged record per discovered pair — record `k` is the judged outcome
of pair `k` under test index `k + 1` — its `test_index` column is
exactly `[1, ..., N]` (so the list is sorted by original index with no
index skipped or duplicated), and sorting any completion-order
permutation of the records yields this same list, so the output order is
independent of completion order. -/
theorem orchestrator_returns_all_cases_ordered (dir : List String)
    (fs : String → Option String) (oracle : Nat → Nat → SResponse)
    (res : List JudgedResult)
    (h : run_test_cases_from_files dir fs oracle = Except.ok res) :
    res.length = (get_test_case_files dir).1.length
    ∧ res.map (fun r => r.test_index) = idxFrom 1 (get_test_case_files dir).1.length
    ∧ (∀ k p, (get_test_case_files dir).1.get? k = some p →
        ∃ r, process_single_test_case fs (oracle (1 + k)) p.1 p.2 (1 + k) = Except.ok r
          ∧ res.get? k = some r)
    ∧ (∀ l, l.Perm res → List.insertionSort idxLe l = res) := by
  by_cases h0 : (get_test_case_files dir).1.length = 0
  · simp only [run_test_cases_from_files] at h
    rw [if_pos h0] at h
    obtain rfl := (Except.ok.inj h).symm
    refine ⟨by simp [h0], by simp [h0, idxFrom], ?_, ?_⟩
    · intro k p hk
      rw [List.length_eq_zero] at h0
      rw [h0] at hk
      simp at hk
    · intro l hl
      have : l = [] := List.eq_nil_of_length_eq_zero (by simpa using hl.length_eq)
      subst this
      rfl
  · simp only [run_test_cases_from_files] at h
    rw [if_neg h0] at h
    cases hg : gatherE ((enumFrom 1 (get_test_case_files dir).1).map
        (fun ip => process_single_test_case fs (oracle ip.1) ip.2.1 ip.2.2 ip.1)) with
    | error e => rw [hg] at h; simp at h
    | ok results =>
        rw [hg] at h
        obtain rfl := (Except.ok.inj h).symm
        obtain ⟨hlen, hmap, hidx⟩ := gather_process fs oracle (get_test_case_files dir).1 1 results hg
        have hsorted : results.Sorted idxLe := by
          have hpw : (results.map (fun r => r.test_index)).Pairwise (· ≤ ·) := by
            rw [hmap]
            exact idxFrom_sorted _ _
          rw [List.pairwise_map] at hpw
          exact hpw
        have hnodup : (results.map (fun r => r.test_index)).Nodup := by
          rw [hmap]
          exact idxFrom_nodup _ _
        have hss : List.insertionSort idxLe results = results :=
          List.Sorted.insertionSort_eq hsorted
        rw [hss]
        refine ⟨hlen, hmap, hidx, ?_⟩
        intro l hl
        exact eq_of_perm_sorted_idx results (List.insertionSort idxLe l)
          ((List.perm_insertionSort idxLe l).trans hl)
          (List.sorted_insertionSort idxLe l) hsorted hnodup

/-- Instantiation of `orchestrator_returns_all_cases_ordered` at the
one-case demo run. -/
theorem orchestrator_returns_all_cases_ordered_witness :
    run_test_cases_from_files dirDemo fsDemo (fun _ _ => SResponse.ok pdOk)
      = Except.ok [demoJudged]
    ∧ [demoJudged].length = (get_test_case_files dirDemo).1.length
    ∧ [demoJudged].map (fun r => r.test_index) = idxFrom 1 (get_test_case_files dirDemo).1.length :=
  ⟨by rfl,
   (orchestrator_returns_all_cases_ordered dirDemo fsDemo
      (fun _ _ => SResponse.ok pdOk) [demoJudged] (by rfl)).1,
   (orchestrator_returns_all_cases_ordered dirDemo fsDemo
      (fun _ _ => SResponse.ok pdOk) [demoJudged] (by rfl)).2.1⟩
